import Mathlib

/-!
Shallow embedding of the rule-text engine and diagnostic pathway model of the
Elicit diagnostic collection system (src/Elicit/models/rule.py,
src/Elicit/models/diagnostic_node.py, src/Elicit/models/diagnostic_pathway.py,
src/Elicit/utils/conversion_utils.py).

Python strings are Lean `String`; Python lists are Lean `List`; Python dicts
(insertion ordered) are association lists `List (key × value)`; Python ints are
`Int` (or `Nat` for indices); fallible operations return `Option`.  Fields that
no claim depends on (positions, timestamps, layout settings, metadata, ids of
rules/pathways) are omitted from the records.
-/

namespace Elicit

/-! ### Small Python-string helpers

Implemented by structural recursion over the underlying character list so that
concrete runs reduce inside the kernel (the core `String.trim`, `splitOn` and
`replace` are defined through `Substring` byte positions and well-founded
recursion, which the kernel does not evaluate).  Python strings index by code
point, which is exactly `List Char`. -/

/-- Python `s.strip()`: drop whitespace from both ends. -/
def pyStrip (s : String) : String :=
  ⟨((s.data.dropWhile Char.isWhitespace).reverse.dropWhile Char.isWhitespace).reverse⟩

/-- Worker for `pySplit`: left-to-right scan emitting the segment collected so
far at each non-overlapping occurrence of `sep`.  The fuel is structural only;
every step consumes at least one character, so `|l| + 1` is never exhausted
for a non-empty `sep`. -/
def splitGo (sep : List Char) : Nat → List Char → List Char → List (List Char)
  | 0, l, cur => [cur ++ l]
  | _ + 1, [], cur => [cur]
  | fuel + 1, c :: rest, cur =>
    if sep.isPrefixOf (c :: rest) then
      cur :: splitGo sep fuel ((c :: rest).drop sep.length) []
    else splitGo sep fuel rest (cur ++ [c])

/-- Python `s.split(sep)` for a non-empty separator: the segments between
consecutive non-overlapping occurrences of `sep`, scanned from the left
(`"a,,b".split(",") == ["a", "", "b"]`, `"".split(",") == [""]`). -/
def pySplit (s sep : String) : List String :=
  (splitGo sep.data (s.data.length + 1) s.data []).map String.mk

/-- Python `s.replace(old, new)` for non-empty `old`, which equals
`new.join(s.split(old))`. -/
def pyReplace (s old new : String) : String :=
  String.intercalate new (pySplit s old)

/-- Python `s.startswith(pre)`. -/
def pyStartsWith (s pre : String) : Bool := pre.data.isPrefixOf s.data

/-- Python `s[n:]`. -/
def pyDrop (s : String) (n : Nat) : String := ⟨s.data.drop n⟩

/-- Python `len(s)` (code points). -/
def pyLen (s : String) : Nat := s.data.length

/-- Python `s[0]` on a non-empty string (arbitrary on the empty one). -/
def pyFront (s : String) : Char := s.data.headD ' '

/-- Python `sub in s` for a non-empty pattern: the split on `pat` has more
than one part exactly when `pat` occurs in `s`. -/
def strContains (s pat : String) : Bool := (pySplit s pat).length > 1

/-- Python `s.split(sep, 1)`: split on the first occurrence of `sep` only,
`none` when `sep` does not occur. -/
def splitOnce (s sep : String) : Option (String × String) :=
  match pySplit s sep with
  | [] => none
  | [_] => none
  | x :: rest => some (x, String.intercalate sep rest)

/-- Python `int(s)` restricted to ASCII: optional sign and a non-empty digit
string after stripping whitespace; `none` models `ValueError`. -/
def pyInt? (s : String) : Option Int :=
  let t := pyStrip s
  let core := if pyStartsWith t "-" ∨ pyStartsWith t "+" then pyDrop t 1 else t
  if core ≠ "" ∧ core.data.all Char.isDigit then
    let n : Nat := core.data.foldl (fun acc c => acc * 10 + (c.toNat - Char.toNat '0')) 0
    some (if pyStartsWith t "-" then -(n : Int) else (n : Int))
  else none

/-! ### Structured rule components (rule.py)

A condition dict `{param, operator, value, connector}` and an action dict
`{type, target, value, sequence}`. -/

structure Condition where
  param : String
  operator : String
  value : String
  connector : String
deriving DecidableEq, Repr

structure RuleAction where
  type : String
  target : String
  value : String
  sequence : Int
deriving DecidableEq, Repr

/-! ### Rule text generation

`Rule._update_rule_text` (rule.py lines 284-322) and
`conversion_utils.generate_rule_text` (lines 682-728) are textually identical;
both are embedded once as `generateRuleText`. -/

/-- Text of one condition: boolean shorthand `param` when `operator == "=" and
value == "true"`, else `"{param} {operator} {value}"`. -/
def condText (c : Condition) : String :=
  if c.operator = "=" ∧ c.value = "true" then c.param
  else c.param ++ " " ++ c.operator ++ " " ++ c.value

/-- One iteration of the generation loop over `full = conditions`: emit the
condition's text, then its connector when the condition is not the last one
and the connector is truthy.  Note the source compares each condition against
`conditions[-1]` with Python `!=`, which is value (field-for-field) equality
on dicts, and checks truthiness of the connector (empty string is falsy). -/
def ifStep (full : List Condition) (acc : List String) (c : Condition) : List String :=
  let acc := acc ++ [condText c]
  if some c ≠ full.getLast? ∧ c.connector ≠ "" then acc ++ [c.connector] else acc

/-- The `if_conditions` list built by the generation loop. -/
def ifParts (conditions : List Condition) : List String :=
  conditions.foldl (ifStep conditions) []

/-- Text of one action: `"{type} {target}"`, plus `" to {value}"` when the
value is truthy (non-empty). -/
def actionText (a : RuleAction) : String :=
  let t := a.type ++ " " ++ a.target
  if a.value ≠ "" then t ++ " to " ++ a.value else t

/-- Insert `a` into a list sorted by `sequence`, before the first element with
a `sequence` not smaller than `a`'s. -/
def insertBySeq (a : RuleAction) : List RuleAction → List RuleAction
  | [] => [a]
  | b :: rest =>
    if a.sequence ≤ b.sequence then a :: b :: rest else b :: insertBySeq a rest

/-- Python `sorted(actions, key=lambda x: x.get("sequence", 1))`: a stable sort
by the `sequence` field (insertion sort is stable, like Python's sort). -/
def pySortedBySeq : List RuleAction → List RuleAction
  | [] => []
  | a :: rest => insertBySeq a (pySortedBySeq rest)

/-- The `THEN` part: actions sorted by `sequence`, each rendered on its own
line numbered by its 1-based position in the sorted order. -/
def thenPartOf (actions : List RuleAction) : String :=
  "THEN" ++ String.join
    ((pySortedBySeq actions).enum.map
      (fun p => "\n  " ++ toString (p.1 + 1) ++ ". " ++ actionText p.2))

/-- `generate_rule_text(conditions, actions)` / `Rule._update_rule_text`:
`"IF " + " ".join(if_conditions)` then `",\n"` then the THEN part. -/
def generateRuleText (conditions : List Condition) (actions : List RuleAction) : String :=
  ("IF " ++ String.intercalate " " (ifParts conditions)) ++ ",\n" ++ thenPartOf actions

/-! ### Rule text parsing (rule.py lines 324-483) -/

/-- Operator list of `_parse_condition`, in the order produced by
`sorted(operators, key=len, reverse=True)` (Python's sort is stable). -/
def OPERATORS_SORTED : List String := ["contains", ">=", "<=", "!=", "=", ">", "<"]

/-- First operator occurring in `text`, with the split around its first
occurrence (Python `text.split(op, 1)`). -/
def findOp : List String → String → Option (String × String × String)
  | [], _ => none
  | op :: rest, text =>
    match splitOnce text op with
    | some (l, r) => some (op, l, r)
    | none => findOp rest text

/-- `Rule._parse_condition`: `none` on blank text; split on the first operator
found (longest first), else a boolean statement `param = "true"`. -/
def parseCondition (text : String) : Option Condition :=
  let text := pyStrip text
  if text = "" then none
  else
    match findOp OPERATORS_SORTED text with
    | some (op, l, r) => some ⟨pyStrip l, op, pyStrip r, ""⟩
    | none => some ⟨text, "=", "true", ""⟩

/-- Action-type keywords of `_parse_action`, in the order produced by
`sorted(action_types, key=len, reverse=True)`. -/
def ACTION_TYPES_SORTED : List String :=
  ["Replace", "Measure", "Restart", "Contact", "Adjust", "Apply", "Clean", "Check"]

/-- First action type that prefixes `text` followed by a space; returns the
type and the remainder `text[len(type):]`. -/
def findActionType : List String → String → Option (String × String)
  | [], _ => none
  | ty :: rest, text =>
    if pyStartsWith text (ty ++ " ") then some (ty, pyDrop text (pyLen ty))
    else findActionType rest text

/-- `Rule._parse_action`: `none` on blank text; match a known action-type
keyword prefix, split the remainder once on `" to "` into target/value; if no
keyword matches, the whole text is the target with type `"Apply"`. -/
def parseAction (text : String) (sequence : Int) : Option RuleAction :=
  let text := pyStrip text
  if text = "" then none
  else
    match findActionType ACTION_TYPES_SORTED text with
    | some (ty, targetValue) =>
      let tv := pyStrip targetValue
      match splitOnce tv " to " with
      | some (t, v) => some ⟨ty, pyStrip t, pyStrip v, sequence⟩
      | none => some ⟨ty, tv, "", sequence⟩
    | none => some ⟨"Apply", text, "", sequence⟩

/-- Sequence-prefix extraction shared by `parse_rule_text` (rule.py lines
378-387) and `convert_to_structured_data` (diagnostic_pathway.py lines
424-433): when the non-blank line starts with a digit and contains `". "`, the
digits before the first `". "` become the sequence and the rest the action
text; a failed `int(...)` (`ValueError`) leaves the defaults. -/
def extractSeq (line : String) (dflt : Int) : Int × String :=
  if (pyFront line).isDigit ∧ strContains line ". " then
    match splitOnce line ". " with
    | some (pre, post) =>
      match pyInt? pre with
      | some n => (n, post)
      | none => (dflt, line)
    | none => (dflt, line)
  else (dflt, line)

/-- Condition-clause parsing of `parse_rule_text`: split on `" AND "` if
present, else on `" OR "`, else a single segment; the connector of every
segment except the last is the splitting token. -/
def parseIfPart (ifPart : String) : List Condition :=
  if strContains ifPart " AND " then
    let parts := pySplit ifPart " AND "
    parts.enum.filterMap (fun p =>
      (parseCondition p.2).map (fun c =>
        { c with connector := if p.1 < parts.length - 1 then "AND" else "" }))
  else if strContains ifPart " OR " then
    let parts := pySplit ifPart " OR "
    parts.enum.filterMap (fun p =>
      (parseCondition p.2).map (fun c =>
        { c with connector := if p.1 < parts.length - 1 then "OR" else "" }))
  else
    match parseCondition ifPart with
    | some c => [{ c with connector := "" }]
    | none => []

/-- Action-clause parsing of `parse_rule_text`: split on newlines, skip blank
lines, extract an optional sequence prefix (default: 1-based line index), then
parse the action body. -/
def parseThenPart (thenPart : String) : List RuleAction :=
  (pySplit thenPart "\n").enum.filterMap (fun p =>
    let line := pyStrip p.2
    if line = "" then none
    else
      let sq := extractSeq line (p.1 + 1)
      parseAction sq.2 sq.1)

/-- `Rule.parse_rule_text` on a text: `none` (parse failure, Python `False`)
when the stripped text is empty or lacks `"IF "` or `", THEN"`; otherwise the
conditions and actions extracted from the clause left of the first `", THEN"`
(with all `"IF "` occurrences removed) and the trimmed clause right of it. -/
def parseRuleTextCore (text : String) : Option (List Condition × List RuleAction) :=
  let ruleText := pyStrip text
  if ruleText = "" then none
  else if strContains ruleText "IF " ∧ strContains ruleText ", THEN" then
    let ifPart := pyReplace ((pySplit ruleText ", THEN").headD "") "IF " ""
    let thenPart := pyStrip ((pySplit ruleText ", THEN").getD 1 "")
    some (parseIfPart ifPart, parseThenPart thenPart)
  else none

/-- The `Rule` state touched by parsing/generation: text, conditions, actions
(metadata and dates omitted). -/
structure Rule where
  text : String
  conditions : List Condition
  actions : List RuleAction
deriving DecidableEq, Repr

/-- `Rule.parse_rule_text`: on success (`True`) the parsed conditions and
actions replace the stored ones; on failure (`False`) the rule is unchanged. -/
def Rule.parseRuleText (r : Rule) : Bool × Rule :=
  match parseRuleTextCore r.text with
  | some (cs, acts) => (true, { r with conditions := cs, actions := acts })
  | none => (false, r)

/-- `Rule._update_rule_text`: regenerate `text` from conditions and actions. -/
def Rule.updateRuleText (r : Rule) : Rule :=
  { r with text := generateRuleText r.conditions r.actions }

/-! ### Diagnostic nodes (diagnostic_node.py)

A node's `properties` dict is represented by the keys the model reads
(`check_type`, `severity`, `impact`, `effectiveness`); an absent key is `none`.
The `node_id` is the key of the pathway's node dict (in the source `from_dict`
and `add_node` force them equal), so it is not duplicated in the record.
Positions are omitted. -/

inductive NodeType
  | problem
  | check
  | condition
  | action
deriving DecidableEq, Repr

/-- Python `node_type.capitalize()` for the four valid types. -/
def NodeType.capitalized : NodeType → String
  | .problem => "Problem"
  | .check => "Check"
  | .condition => "Condition"
  | .action => "Action"

structure NodeProps where
  check_type : Option String := none
  severity : Option String := none
  impact : Option String := none
  effectiveness : Option Int := none
deriving DecidableEq, Repr

/-- `DiagnosticNode.DEFAULT_PROPERTIES`. -/
def DEFAULT_PROPERTIES : NodeType → NodeProps
  | .problem => {}
  | .check => { check_type := some "Visual Inspection" }
  | .condition => { severity := some "Normal" }
  | .action => { impact := some "Adjustment", effectiveness := some 3 }

structure DiagnosticNode where
  node_type : NodeType
  content : String := ""
  connections : List String := []
  props : NodeProps := {}
deriving DecidableEq, Repr

/-- `DiagnosticNode.__init__`: empty content, no connections, the default
properties of the node type. -/
def mkNode (t : NodeType) : DiagnosticNode :=
  { node_type := t, content := "", connections := [], props := DEFAULT_PROPERTIES t }

/-- `get_check_type`: the `check_type` property for check nodes, else None. -/
def DiagnosticNode.getCheckType (n : DiagnosticNode) : Option String :=
  if n.node_type = .check then n.props.check_type else none

/-- `get_condition_severity`: the `severity` property for condition nodes. -/
def DiagnosticNode.getConditionSeverity (n : DiagnosticNode) : Option String :=
  if n.node_type = .condition then n.props.severity else none

/-- `get_action_impact`: the `impact` property for action nodes. -/
def DiagnosticNode.getActionImpact (n : DiagnosticNode) : Option String :=
  if n.node_type = .action then n.props.impact else none

/-- `DiagnosticNode.add_connection`: append the target unless present. -/
def DiagnosticNode.addConnection (n : DiagnosticNode) (target : String) : DiagnosticNode :=
  if target ∈ n.connections then n
  else { n with connections := n.connections ++ [target] }

/-- `DiagnosticNode.remove_connection`: Python `list.remove` deletes the first
occurrence only (`List.erase`). -/
def DiagnosticNode.removeConnection (n : DiagnosticNode) (target : String) : DiagnosticNode :=
  { n with connections := n.connections.erase target }

/-! ### Diagnostic pathway (diagnostic_pathway.py)

`nodes` is the insertion-ordered dict `node_id -> DiagnosticNode` as an
association list; `connections` the list of `(source_id, target_id)` pairs. -/

structure DiagnosticPathway where
  nodes : List (String × DiagnosticNode) := []
  connections : List (String × String) := []
deriving DecidableEq, Repr

/-- A pathway representable by the Python model: dict keys are unique. -/
def DiagnosticPathway.WF (p : DiagnosticPathway) : Prop :=
  (p.nodes.map Prod.fst).Nodup

/-- Python dict assignment `d[k] = v`: replace in place if the key exists,
else append. -/
def dictSet (m : List (String × DiagnosticNode)) (k : String) (v : DiagnosticNode) :
    List (String × DiagnosticNode) :=
  match m with
  | [] => [(k, v)]
  | (k', v') :: rest => if k' = k then (k, v) :: rest else (k', v') :: dictSet rest k v

/-- Modify the entry of key `k` in place (Python mutates the node object held
in the dict). -/
def dictModify (m : List (String × DiagnosticNode)) (k : String)
    (f : DiagnosticNode → DiagnosticNode) : List (String × DiagnosticNode) :=
  match m with
  | [] => []
  | (k', v') :: rest => if k' = k then (k', f v') :: rest else (k', v') :: dictModify rest k f

/-- `DiagnosticPathway.get_node` / `self.nodes.get(node_id)`. -/
def DiagnosticPathway.getNode (p : DiagnosticPathway) (id : String) : Option DiagnosticNode :=
  p.nodes.lookup id

/-- `DiagnosticPathway.add_node`: insert a freshly created node of the given
type under the given id (the source draws the id from `uuid.uuid4()`). -/
def DiagnosticPathway.addNode (p : DiagnosticPathway) (t : NodeType) (id : String) :
    DiagnosticPathway :=
  { p with nodes := dictSet p.nodes id (mkNode t) }

/-- `DiagnosticPathway.remove_node`: `False` if the id is absent; else delete
the node, drop every connection pair with the id as source or target, and
strip the id (first occurrence, via `list.remove`) from every remaining
node's `connections` list. -/
def DiagnosticPathway.removeNode (p : DiagnosticPathway) (id : String) :
    DiagnosticPathway × Bool :=
  if (p.nodes.lookup id).isNone then (p, false)
  else
    ({ nodes := (p.nodes.filter (fun kv => kv.1 ≠ id)).map
         (fun kv => (kv.1, kv.2.removeConnection id)),
       connections := p.connections.filter (fun e => e.1 ≠ id ∧ e.2 ≠ id) }, true)

/-- `DiagnosticPathway.connect_nodes`: `False` if either endpoint is missing
or the edge already exists; else append the edge and record it in the source
node's own `connections` list. -/
def DiagnosticPathway.connectNodes (p : DiagnosticPathway) (s t : String) :
    DiagnosticPathway × Bool :=
  if (p.nodes.lookup s).isNone ∨ (p.nodes.lookup t).isNone then (p, false)
  else if (s, t) ∈ p.connections then (p, false)
  else
    ({ nodes := dictModify p.nodes s (fun n => n.addConnection t),
       connections := p.connections ++ [(s, t)] }, true)

/-! ### Pathway-to-rule-text conversion (diagnostic_pathway.py lines 302-459) -/

/-- Starting nodes of `convert_to_rule_text`: nodes with no incoming
connection; if none, the problem nodes; if none of those either, the first
node (dict order = insertion order). -/
def startingNodes (p : DiagnosticPathway) : List String :=
  let incoming := p.connections.map Prod.snd
  let starts := (p.nodes.map Prod.fst).filter (fun id => ¬ id ∈ incoming)
  if starts ≠ [] then starts
  else
    let problems := (p.nodes.filter (fun kv => kv.2.node_type = .problem)).map Prod.fst
    if problems ≠ [] then problems else (p.nodes.map Prod.fst).take 1

/-- Node content with the `"[Empty {Type}]"` placeholder for blank content. -/
def nodeContent (n : DiagnosticNode) : String :=
  let c := pyStrip n.content
  if c = "" then "[Empty " ++ n.node_type.capitalized ++ "]" else c

/-- Traversal state of `_process_node_for_rule`: the shared `conditions` and
`actions` lists and the `visited` set (a list used only through membership). -/
structure TravSt where
  conditions : List String
  actions : List String
  visited : List String
deriving DecidableEq, Repr

/-- The phrase appended for one node (diagnostic_pathway.py lines 361-381):
problems, checks and conditions feed `conditions`, actions feed `actions`;
a falsy (absent or empty) `check_type`/`severity`/`impact` selects the
fallback phrasing. -/
def applyNodePhrase (n : DiagnosticNode) (st : TravSt) : TravSt :=
  let content := nodeContent n
  match n.node_type with
  | .problem =>
    { st with conditions := st.conditions ++ ["problem is '" ++ content ++ "'"] }
  | .check =>
    match n.getCheckType with
    | some ct =>
      if ct ≠ "" then
        { st with conditions := st.conditions ++ [ct ++ " shows '" ++ content ++ "'"] }
      else { st with conditions := st.conditions ++ ["check shows '" ++ content ++ "'"] }
    | none => { st with conditions := st.conditions ++ ["check shows '" ++ content ++ "'"] }
  | .condition =>
    match n.getConditionSeverity with
    | some sv =>
      if sv ≠ "" then
        { st with conditions := st.conditions ++ [sv ++ " condition: " ++ content] }
      else { st with conditions := st.conditions ++ [content] }
    | none => { st with conditions := st.conditions ++ [content] }
  | .action =>
    match n.getActionImpact with
    | some im =>
      if im ≠ "" then { st with actions := st.actions ++ [im ++ ": " ++ content] }
      else { st with actions := st.actions ++ [content] }
    | none => { st with actions := st.actions ++ [content] }

/-- `_process_node_for_rule`: skip visited ids, mark the id visited, look the
node up (ids without a node are marked but contribute nothing), append the
node's phrase, then recurse into every connection whose source is this node,
in connection-list order.  The `fuel` argument only bounds the recursion
depth, which the source bounds implicitly: past the visited check every level
adds a new id to `visited`, and all such ids come from the node dict's keys or
the connection targets, so a fuel exceeding their count is never exhausted. -/
def processNodeForRule (p : DiagnosticPathway) : Nat → String → TravSt → TravSt
  | 0, _, st => st
  | fuel + 1, nodeId, st =>
    if nodeId ∈ st.visited then st
    else
      let st := { st with visited := st.visited ++ [nodeId] }
      match p.nodes.lookup nodeId with
      | none => st
      | some node =>
        p.connections.foldl
          (fun acc e => if e.1 = nodeId then processNodeForRule p fuel e.2 acc else acc)
          (applyNodePhrase node st)

/-- Recursion-depth bound for `processNodeForRule`: one more than the number
of ids that can ever enter `visited`. -/
def travFuel (p : DiagnosticPathway) : Nat := p.nodes.length + p.connections.length + 1

/-- The `(conditions, actions)` lists accumulated by `convert_to_rule_text`:
each starting node is traversed with a fresh empty `visited` set (the source
passes a new `set()` per starting node) while the condition/action lists are
shared across the traversals. -/
def convertCollected (p : DiagnosticPathway) : TravSt :=
  (startingNodes p).foldl
    (fun acc s => processNodeForRule p (travFuel p) s { acc with visited := [] })
    ⟨[], [], []⟩

/-- `DiagnosticPathway.convert_to_rule_text`: conditions joined with
`" AND "` after `"IF "`, then `",\n"`, then `"THEN"` with the actions numbered
by position. -/
def convertToRuleText (p : DiagnosticPathway) : String :=
  let st := convertCollected p
  ("IF " ++ String.intercalate " AND " st.conditions) ++ ",\n" ++
    ("THEN" ++ String.join
      (st.actions.enum.map (fun q => "\n  " ++ toString (q.1 + 1) ++ ". " ++ q.2)))

/-- The fields of the dict returned by `convert_to_structured_data` that the
claims are about (`is_complex`, `name`, `description`, `pathway_data` are
constants or copies of pathway metadata and are omitted). -/
structure StructuredData where
  text : String
  conditions : List Condition
  actions : List RuleAction
deriving DecidableEq, Repr

/-- Python `conditions[-1]["connector"] = ""` guarded by `if conditions:`:
clear the connector of the last element, keep the rest. -/
def setLastConnectorEmpty : List Condition → List Condition
  | [] => []
  | [c] => [{ c with connector := "" }]
  | c :: rest => c :: setLastConnectorEmpty rest

/-- The if-clause extracted inside `convert_to_structured_data`:
`parts[0].replace("IF ", "").strip()`. -/
def structuredIfPart (ruleText : String) : String :=
  pyStrip (pyReplace ((pySplit ruleText ",\nTHEN").headD "") "IF " "")

/-- The then-clause extracted inside `convert_to_structured_data`:
`parts[1].strip()`. -/
def structuredThenPart (ruleText : String) : String :=
  pyStrip ((pySplit ruleText ",\nTHEN").getD 1 "")

/-- The conditions built inside `convert_to_structured_data`: one boolean
condition `{param: segment, operator: "=", value: "true", connector: "AND"}`
per `" AND "`-segment of the if-clause, last connector cleared. -/
def structuredConditions (ruleText : String) : List Condition :=
  setLastConnectorEmpty ((pySplit (structuredIfPart ruleText) " AND ").map
    (fun t => ({ param := t, operator := "=", value := "true", connector := "AND" } : Condition)))

/-- The actions built inside `convert_to_structured_data`: one per non-blank
line of the then-clause, the optional `"<digits>. "` prefix giving the
sequence (default the 1-based line index), the body split once on `": "` into
type/target (default type `"Apply"`), value always empty. -/
def structuredActions (ruleText : String) : List RuleAction :=
  (pySplit (structuredThenPart ruleText) "\n").enum.filterMap (fun q =>
    let line := pyStrip q.2
    if line = "" then none
    else
      let sq := extractSeq line (q.1 + 1)
      match splitOnce sq.2 ": " with
      | some (ty, tgt) =>
        some ({ type := ty, target := tgt, value := "", sequence := sq.1 } : RuleAction)
      | none => some ({ type := "Apply", target := sq.2, value := "", sequence := sq.1 } : RuleAction))

/-- `DiagnosticPathway.convert_to_structured_data`: regenerate the rule text
(the source computes it once; the embedding repeats the pure call) and, when
splitting it on `",\nTHEN"` gives exactly two parts, extract the structured
conditions and actions from them; otherwise both lists stay empty. -/
def convertToStructuredData (p : DiagnosticPathway) : StructuredData :=
  if (pySplit (convertToRuleText p) ",\nTHEN").length = 2 then
    ⟨convertToRuleText p, structuredConditions (convertToRuleText p),
      structuredActions (convertToRuleText p)⟩
  else ⟨convertToRuleText p, [], []⟩

/-! ### Helper definitions for the theorems -/

/-- One starting-node traversal of `convert_to_rule_text`, run on fresh empty
condition/action lists and a fresh empty visited set. -/
def traverseFrom (p : DiagnosticPathway) (s : String) : TravSt :=
  processNodeForRule p (travFuel p) s ⟨[], [], []⟩

/-- Prefix the condition and action accumulators of a traversal state. -/
def prependSt (cs acts : List String) (st : TravSt) : TravSt :=
  ⟨cs ++ st.conditions, acts ++ st.actions, st.visited⟩

/-! ### Concrete example inputs used by the individual claims -/

/-- Pathway of claim C1: two starting problem nodes `A`, `B` both connected to
the single action node `X`. -/
def pathwayC1 : DiagnosticPathway :=
  { nodes := [("A", { node_type := .problem, content := "p1", connections := ["X"] }),
              ("B", { node_type := .problem, content := "p2", connections := ["X"] }),
              ("X", { node_type := .action, content := "act" })],
    connections := [("A", "X"), ("B", "X")] }

/-- Conditions of claim C2's round-trip input. -/
def conditionsC2 : List Condition := [⟨"temperature", ">", "90", ""⟩]

/-- Actions of claim C2's round-trip input. -/
def actionsC2 : List RuleAction := [⟨"Apply", "cooling", "", 1⟩]

/-- The rule holding C2's generated text together with the structured data the
text was generated from. -/
def ruleC2 : Rule :=
  ⟨generateRuleText conditionsC2 actionsC2, conditionsC2, actionsC2⟩

/-- Pathway of claim C3: the chain
`problem "Temp high" -> check "Sensor check" -> condition "Temp>90" ->
action "Apply cooling"`, with no `check_type`, `severity` or `impact` set
(every `properties` dict empty). -/
def pathwayC3 : DiagnosticPathway :=
  { nodes := [("P", { node_type := .problem, content := "Temp high", connections := ["C"] }),
              ("C", { node_type := .check, content := "Sensor check", connections := ["N"] }),
              ("N", { node_type := .condition, content := "Temp>90", connections := ["A"] }),
              ("A", { node_type := .action, content := "Apply cooling" })],
    connections := [("P", "C"), ("C", "N"), ("N", "A")] }

/-- Pathway of claim C4: `problem "p" -> action "fix it"`, properties empty. -/
def pathwayC4 : DiagnosticPathway :=
  { nodes := [("P", { node_type := .problem, content := "p" }),
              ("A", { node_type := .action, content := "fix it" })],
    connections := [("P", "A")] }

/-- A rule used as a parse-failure input for claim C7: free text without the
`IF`/`THEN` shape, with non-empty structured data. -/
def ruleC7 : Rule :=
  ⟨"just some free text", [⟨"x", "=", "true", ""⟩], [⟨"Apply", "y", "", 1⟩]⟩

/-- Pathway of claim C8's witness: one node, used for a self-loop connect. -/
def pathwayC8 : DiagnosticPathway :=
  { nodes := [("A", { node_type := .check, content := "a" })], connections := [] }

/-- Pathway of claim C6's counterexample: node `B`'s `connections` list holds
the id `"A"` twice (such states are reachable through
`DiagnosticPathway.from_dict`, which loads `connections` lists verbatim). -/
def pathwayC6dup : DiagnosticPathway :=
  { nodes := [("A", { node_type := .action, content := "a" }),
              ("B", { node_type := .check, content := "b", connections := ["A", "A"] })],
    connections := [("B", "A")] }

/-- Pathway of claim C6's witness: two nodes and one edge, every node's
`connections` list duplicate-free. -/
def pathwayC6 : DiagnosticPathway :=
  { nodes := [("A", { node_type := .problem, content := "a", connections := ["B"] }),
              ("B", { node_type := .action, content := "b" })],
    connections := [("A", "B")] }

/-- The duplicated condition of claim C9's counterexample. -/
def conditionC9 : Condition := ⟨"x", "=", "true", "AND"⟩

/-- Every id that a traversal can ever add to `visited` after the starting
node: the node dict's keys and the connection targets (starting nodes are
always keys). -/
def travCandidates (p : DiagnosticPathway) : List String :=
  p.nodes.map Prod.fst ++ p.connections.map Prod.snd

/-- Number of distinct candidate ids not yet visited — the implicit measure
of the source's recursion. -/
def unvisitedCount (p : DiagnosticPathway) (st : TravSt) : Nat :=
  ((travCandidates p).dedup.filter (fun x => x ∉ st.visited)).length

/-! ### Claim theorems -/

/-- C3: the pathway `problem "Temp high" -> check "Sensor check" ->
condition "Temp>90" -> action "Apply cooling"` with no `check_type`,
`severity` or `impact` set converts to exactly the claimed rule text. -/
theorem convert_chain_pathway_rule_text :
    convertToRuleText pathwayC3 =
      "IF problem is 'Temp high' AND check shows 'Sensor check' AND Temp>90,\nTHEN\n  1. Apply cooling" := by
  decide

/-- C1 counterexample: in `pathwayC1` the action node `X` is reachable from
both starting nodes `A` and `B`, and its phrase `"act"` is collected twice —
`convert_to_rule_text` passes a fresh `set()` to each starting-node traversal
instead of one shared visited set, so the claim that such a node contributes
exactly one phrase is false. -/
theorem traversal_shared_node_phrase_duplicated :
    (convertCollected pathwayC1).actions = ["act", "act"] ∧
      convertToRuleText pathwayC1 =
        "IF problem is 'p1' AND problem is 'p2',\nTHEN\n  1. act\n  2. act" := by
  exact ⟨by decide, by decide⟩

/-- C2 counterexample: the text generated from C2's conditions and actions
joins the IF and THEN parts with `",\n"`, while `parse_rule_text` requires the
substring `", THEN"`; parsing the generated text therefore fails (`none`,
Python `False`) instead of yielding conditions matching the originals. -/
theorem roundtrip_parse_of_generated_text_fails :
    generateRuleText conditionsC2 actionsC2 = "IF temperature > 90,\nTHEN\n  1. Apply cooling" ∧
      parseRuleTextCore (generateRuleText conditionsC2 actionsC2) = none := by
  exact ⟨by decide, by decide⟩

/-- C4 counterexample: on `pathwayC4`, `convert_to_structured_data` extracts a
condition and an action from the generated text, while `Rule.parse_rule_text`
applied to the same text fails (`none`) — its splitting logic requires
`", THEN"`, not the generated `",\nTHEN"` — so the two parsing routines are
not the same. -/
theorem structured_data_differs_from_rule_parse :
    (convertToStructuredData pathwayC4).conditions =
        [⟨"problem is 'p'", "=", "true", ""⟩] ∧
      (convertToStructuredData pathwayC4).actions = [⟨"Apply", "fix it", "", 1⟩] ∧
      parseRuleTextCore (convertToRuleText pathwayC4) = none := by
  exact ⟨by decide, by decide, by decide⟩

/-- C6 counterexample: removing node `A` from `pathwayC6dup`, where `B`'s
`connections` list holds `"A"` twice, reports success but leaves an `"A"`
entry in `B`'s `connections` list, because `remove_connection` (Python
`list.remove`) deletes only the first occurrence. -/
theorem remove_node_leaves_duplicate_connection_entry :
    (pathwayC6dup.removeNode "A").2 = true ∧
      (pathwayC6dup.removeNode "A").1.nodes =
        [("B", { node_type := .check, content := "b", connections := ["A"] })] := by
  exact ⟨by decide, by decide⟩

/-- C9 counterexample: with two field-for-field equal conditions carrying
connector `"AND"`, generation emits no connector after the first (non-last)
condition — the source's `condition != conditions[-1]` is Python value
equality — so the output is `"IF x x"` rather than `"IF x AND x"`. -/
theorem connector_skipped_for_condition_equal_to_last :
    generateRuleText [conditionC9, conditionC9] [] = "IF x x,\nTHEN" ∧
      generateRuleText [conditionC9, conditionC9] [] ≠ "IF x AND x,\nTHEN" := by
  exact ⟨by decide, by decide⟩

/-- Failure condition of the core parse: `none` exactly when the stripped
text is empty or lacks `"IF "` or `", THEN"`. -/
theorem parseRuleTextCore_eq_none_iff (text : String) :
    parseRuleTextCore text = none ↔
      (pyStrip text = "" ∨ strContains (pyStrip text) "IF " = false ∨
        strContains (pyStrip text) ", THEN" = false) := by
  unfold parseRuleTextCore
  by_cases h1 : pyStrip text = ""
  · rw [if_pos h1]
    simp [h1]
  · rw [if_neg h1]
    by_cases h2 : strContains (pyStrip text) "IF " = true ∧
        strContains (pyStrip text) ", THEN" = true
    · rw [if_pos h2]
      simp [h1, h2.1, h2.2]
    · rw [if_neg h2]
      simp only [iff_true]
      rcases not_and_or.mp h2 with h | h <;> simp [Bool.not_eq_true] at h <;> simp [h1, h]

/-- A failed core parse leaves the rule unchanged and reports `false`. -/
theorem parseRuleText_of_core_none (r : Rule) (h : parseRuleTextCore r.text = none) :
    r.parseRuleText = (false, r) := by
  unfold Rule.parseRuleText
  rw [h]

/-- The reported flag is `false` exactly when the core parse fails. -/
theorem parseRuleText_false_iff_core_none (r : Rule) :
    r.parseRuleText.1 = false ↔ parseRuleTextCore r.text = none := by
  unfold Rule.parseRuleText
  cases h : parseRuleTextCore r.text with
  | none => simp
  | some v => cases v; simp

/-- C7: `parse_rule_text` reports failure (`False`), never raising, exactly
when the stripped rule text is empty or lacks the substring `"IF "` or the
substring `", THEN"`; and on failure the rule's conditions and actions are
left unchanged.  (Totality of the embedding models absence of exceptions.) -/
theorem parse_rule_text_failure_iff :
    ∀ r : Rule,
      ((r.parseRuleText.1 = false) ↔
        (pyStrip r.text = "" ∨ strContains (pyStrip r.text) "IF " = false ∨
          strContains (pyStrip r.text) ", THEN" = false))
      ∧ (r.parseRuleText.1 = false →
          r.parseRuleText.2.conditions = r.conditions ∧
            r.parseRuleText.2.actions = r.actions) := by
  intro r
  constructor
  · rw [parseRuleText_false_iff_core_none]
    exact parseRuleTextCore_eq_none_iff r.text
  · intro h
    rw [parseRuleText_of_core_none r ((parseRuleText_false_iff_core_none r).mp h)]
    exact ⟨rfl, rfl⟩

/-- C7 witness: on the free-text rule `ruleC7` parsing fails and the stored
conditions and actions are untouched. -/
theorem parse_rule_text_failure_iff_witness :
    (Rule.parseRuleText ruleC7).2.conditions = ruleC7.conditions ∧
      (Rule.parseRuleText ruleC7).2.actions = ruleC7.actions :=
  (parse_rule_text_failure_iff ruleC7).2 (by decide)

/-- C8: `connect_nodes` returns `False` and leaves the pathway unchanged
exactly when an endpoint is missing or the edge already exists, never
raising (the embedding is total); otherwise it returns `True` with the edge
appended.  A self-loop on an existing node falls in the success case like any
other absent edge. -/
theorem connect_nodes_failure_iff :
    ∀ (p : DiagnosticPathway) (s t : String),
      (((p.connectNodes s t).2 = false) ↔
        ((p.nodes.lookup s).isNone = true ∨ (p.nodes.lookup t).isNone = true ∨
          (s, t) ∈ p.connections))
      ∧ ((p.connectNodes s t).2 = false → (p.connectNodes s t).1 = p)
      ∧ ((p.connectNodes s t).2 = true →
          (p.connectNodes s t).1.connections = p.connections ++ [(s, t)]) := by
  intro p s t
  unfold DiagnosticPathway.connectNodes
  by_cases h1 : (p.nodes.lookup s).isNone = true ∨ (p.nodes.lookup t).isNone = true
  · rw [if_pos h1]
    exact ⟨⟨fun _ => h1.elim Or.inl (fun h => Or.inr (Or.inl h)), fun _ => rfl⟩,
      fun _ => rfl, fun hh => Bool.noConfusion hh⟩
  · rw [if_neg h1]
    by_cases h2 : (s, t) ∈ p.connections
    · rw [if_pos h2]
      exact ⟨⟨fun _ => Or.inr (Or.inr h2), fun _ => rfl⟩,
        fun _ => rfl, fun hh => Bool.noConfusion hh⟩
    · rw [if_neg h2]
      refine ⟨⟨fun hh => Bool.noConfusion hh, fun hr => ?_⟩,
        fun hh => Bool.noConfusion hh, fun _ => rfl⟩
      rcases hr with h | h | h
      · exact absurd (Or.inl h) h1
      · exact absurd (Or.inr h) h1
      · exact absurd h h2

/-- C8 witness: connecting the existing node `A` of `pathwayC8` to itself (a
self-loop) succeeds and appends the edge. -/
theorem connect_nodes_failure_iff_witness :
    (pathwayC8.connectNodes "A" "A").2 = true ∧
      (pathwayC8.connectNodes "A" "A").1.connections =
        pathwayC8.connections ++ [("A", "A")] :=
  ⟨by decide, (connect_nodes_failure_iff pathwayC8 "A" "A").2.2 (by decide)⟩

/-- C6 (amended): for pathways in which no node's `connections` list holds
duplicate entries, `remove_node` of a present id reports success, purges the
id from the connection pairs, deletes the node, and strips the id from every
remaining node's `connections` list; for an absent id the pathway is returned
unchanged with `False`.  (Without the no-duplicates hypothesis only the first
occurrence is stripped, see the counterexample.) -/
theorem remove_node_postcondition :
    ∀ (p : DiagnosticPathway) (id : String),
      (∀ kv ∈ p.nodes, kv.2.connections.Nodup) →
      (((p.nodes.lookup id).isSome = true →
          (p.removeNode id).2 = true
          ∧ (∀ e ∈ (p.removeNode id).1.connections, e.1 ≠ id ∧ e.2 ≠ id)
          ∧ (∀ kv ∈ (p.removeNode id).1.nodes, kv.1 ≠ id ∧ id ∉ kv.2.connections))
        ∧ ((p.nodes.lookup id).isNone = true → p.removeNode id = (p, false))) := by
  intro p id hnd
  constructor
  · intro hs
    have hn : ¬ (p.nodes.lookup id).isNone = true := by
      rw [Bool.not_eq_true, Option.isNone_eq_false_iff]
      exact hs
    unfold DiagnosticPathway.removeNode
    rw [if_neg hn]
    refine ⟨rfl, ?_, ?_⟩
    · intro e he
      exact of_decide_eq_true (List.mem_filter.mp he).2
    · intro kv hkv
      rw [List.mem_map] at hkv
      obtain ⟨kv', hkv', rfl⟩ := hkv
      have hf := List.mem_filter.mp hkv'
      refine ⟨of_decide_eq_true hf.2, ?_⟩
      have hconn : kv'.2.connections.Nodup := hnd kv' hf.1
      simpa [DiagnosticNode.removeConnection] using hconn.not_mem_erase
  · intro hno
    unfold DiagnosticPathway.removeNode
    rw [if_pos hno]

/-- C6 witness: removing the present node `B` from the duplicate-free pathway
`pathwayC6` succeeds, no connection pair references `B`, and no remaining
node's `connections` list contains `B`; removing the absent id `Z` returns the
pathway unchanged with `False`. -/
theorem remove_node_postcondition_witness :
    ((pathwayC6.removeNode "B").2 = true
      ∧ (∀ e ∈ (pathwayC6.removeNode "B").1.connections, e.1 ≠ "B" ∧ e.2 ≠ "B")
      ∧ (∀ kv ∈ (pathwayC6.removeNode "B").1.nodes, kv.1 ≠ "B" ∧ "B" ∉ kv.2.connections))
    ∧ pathwayC6.removeNode "Z" = (pathwayC6, false) :=
  ⟨(remove_node_postcondition pathwayC6 "B" (by decide)).1 (by decide),
   (remove_node_postcondition pathwayC6 "Z" (by decide)).2 (by decide)⟩

/-- Looking up the key just written by a Python dict assignment returns the
written value. -/
theorem lookup_dictSet (m : List (String × DiagnosticNode)) (k : String) (v : DiagnosticNode) :
    (dictSet m k v).lookup k = some v := by
  induction m with
  | nil => simp [dictSet, List.lookup]
  | cons kv rest ih =>
    obtain ⟨k', v'⟩ := kv
    unfold dictSet
    by_cases h : k' = k
    · rw [if_pos h]
      simp [List.lookup]
    · rw [if_neg h]
      have : (k == k') = false := by
        simp [beq_eq_false_iff_ne]
        exact fun hc => h hc.symm
      simp [List.lookup, this, ih]

/-- C10: a node created by `add_node` carries the non-empty default
type-specific properties of its type (check: `check_type` `"Visual
Inspection"`; condition: `severity` `"Normal"`; action: `impact`
`"Adjustment"` and `effectiveness` `3`; problem: none), and for every node
still carrying its type's default properties the traversal phrase is the
property-bearing one — the fallback phrasings (`"check shows …"`, bare
condition content, bare action content) are never selected, so a graph built
solely through `add_node` never uses them. -/
theorem add_node_default_properties :
    (∀ t : NodeType, (mkNode t).props = DEFAULT_PROPERTIES t)
    ∧ (∀ (p : DiagnosticPathway) (t : NodeType) (id : String),
        ((p.addNode t id).nodes.lookup id) = some (mkNode t))
    ∧ (∀ (n : DiagnosticNode) (st : TravSt),
        n.props = DEFAULT_PROPERTIES n.node_type →
        applyNodePhrase n st =
          (match n.node_type with
           | .problem =>
             { st with conditions := st.conditions ++ ["problem is '" ++ nodeContent n ++ "'"] }
           | .check =>
             { st with conditions :=
                 st.conditions ++ ["Visual Inspection shows '" ++ nodeContent n ++ "'"] }
           | .condition =>
             { st with conditions := st.conditions ++ ["Normal condition: " ++ nodeContent n] }
           | .action =>
             { st with actions := st.actions ++ ["Adjustment: " ++ nodeContent n] })) := by
  refine ⟨fun t => rfl, fun p t id => lookup_dictSet p.nodes id (mkNode t), ?_⟩
  intro n st hp
  cases ht : n.node_type <;> rw [ht] at hp <;>
    simp [applyNodePhrase, DiagnosticNode.getCheckType, DiagnosticNode.getConditionSeverity,
      DiagnosticNode.getActionImpact, ht, hp, DEFAULT_PROPERTIES]

/-- C10 witness: a freshly added check node produces the
`"Visual Inspection shows …"` phrase, not the `"check shows …"` fallback. -/
theorem add_node_default_properties_witness :
    applyNodePhrase (mkNode .check) ⟨[], [], []⟩ =
      ⟨["Visual Inspection shows '[Empty Check]'"], [], []⟩ := by
  have h := add_node_default_properties.2.2 (mkNode .check) ⟨[], [], []⟩ rfl
  simpa using h

/-- The generation loop over the full condition list appends, for each
condition, its text followed by its connector when the condition is not
value-equal to the last one and the connector is non-empty. -/
theorem foldl_ifStep_append (full : List Condition) :
    ∀ (cs : List Condition) (init : List String),
      cs.foldl (ifStep full) init =
        init ++ (cs.map (fun c =>
          condText c ::
            (if some c ≠ full.getLast? ∧ c.connector ≠ "" then [c.connector] else []))).flatten := by
  intro cs
  induction cs with
  | nil => intro init; simp
  | cons c rest ih =>
    intro init
    rw [List.foldl_cons, ih, List.map_cons, List.flatten_cons]
    unfold ifStep
    by_cases h : some c ≠ full.getLast? ∧ c.connector ≠ ""
    · rw [if_pos h, if_pos h]
      simp
    · rw [if_neg h, if_neg h]
      simp

/-- C9 (amended): the `if_conditions` list of generated rule text carries,
after each condition's text, the condition's connector as a separate token
exactly when the connector is non-empty and the condition is not
field-for-field equal to the last condition of the list (the source's
`condition != conditions[-1]` is Python dict value equality, so a non-last
condition equal to the last one gets no connector). -/
theorem connector_insertion_rule :
    ∀ conditions : List Condition,
      ifParts conditions =
        (conditions.map (fun c =>
          condText c ::
            (if some c ≠ conditions.getLast? ∧ c.connector ≠ "" then [c.connector] else []))).flatten := by
  intro conditions
  unfold ifParts
  simpa using foldl_ifStep_append conditions conditions []

/-- C2 (amended): text produced by `_update_rule_text` joins the IF and THEN
parts with `",\n"` while `parse_rule_text` requires `", THEN"`, so whenever
the generated (stripped) text does not otherwise contain `", THEN"`, parsing
it reports failure and leaves the rule — conditions and actions included —
unchanged; the round trip does not reproduce the structured data. -/
theorem generated_text_parse_fails :
    ∀ (r : Rule) (cs : List Condition) (acts : List RuleAction),
      r.text = generateRuleText cs acts →
      strContains (pyStrip r.text) ", THEN" = false →
      r.parseRuleText.1 = false ∧ r.parseRuleText.2 = r := by
  intro r cs acts _ hc
  have hnone : parseRuleTextCore r.text = none :=
    (parseRuleTextCore_eq_none_iff r.text).mpr (Or.inr (Or.inr hc))
  rw [parseRuleText_of_core_none r hnone]
  exact ⟨rfl, rfl⟩

/-- C2 witness: the rule whose text was generated from C2's conditions and
actions fails to parse and is left unchanged. -/
theorem generated_text_parse_fails_witness :
    (Rule.parseRuleText ruleC2).1 = false ∧ (Rule.parseRuleText ruleC2).2 = ruleC2 :=
  generated_text_parse_fails ruleC2 conditionsC2 actionsC2 rfl (by decide)

/-- Clearing the last connector changes no condition's operator or value. -/
theorem setLastConnectorEmpty_op_value :
    ∀ cs : List Condition, (∀ c ∈ cs, c.operator = "=" ∧ c.value = "true") →
      ∀ c ∈ setLastConnectorEmpty cs, c.operator = "=" ∧ c.value = "true" := by
  intro cs
  induction cs with
  | nil =>
    intro _ c hc
    simp [setLastConnectorEmpty] at hc
  | cons a rest ih =>
    intro h c hc
    cases rest with
    | nil =>
      simp [setLastConnectorEmpty] at hc
      subst hc
      exact h a (List.mem_cons_self a [])
    | cons b rest2 =>
      rw [show setLastConnectorEmpty (a :: b :: rest2) =
            a :: setLastConnectorEmpty (b :: rest2) from rfl] at hc
      rcases List.mem_cons.mp hc with rfl | hc2
      · exact h c (List.mem_cons_self c (b :: rest2))
      · exact ih (fun x hx => h x (List.mem_cons_of_mem a hx)) c hc2

/-- Every structured condition built from an `" AND "`-segment is a boolean
statement: operator `"="` and value `"true"`, whatever the segment. -/
theorem mem_structured_conditions_boolean (ruleText : String) (c : Condition)
    (hc : c ∈ structuredConditions ruleText) :
    c.operator = "=" ∧ c.value = "true" := by
  unfold structuredConditions at hc
  refine setLastConnectorEmpty_op_value _ ?_ c hc
  intro x hx
  rw [List.mem_map] at hx
  obtain ⟨seg, _, rfl⟩ := hx
  exact ⟨rfl, rfl⟩

/-- C4 (amended): the inline re-parse of `convert_to_structured_data` never
decomposes a condition segment — every produced condition has operator `"="`
and value `"true"` — and `Rule.parse_rule_text` fails outright on the
generated text whenever its stripped form lacks `", THEN"` (which the
generated `",\nTHEN"` joint does not supply), so the re-parse is not the same
parsing logic as `Rule.parse_rule_text`. -/
theorem structured_conditions_vs_rule_parse :
    ∀ p : DiagnosticPathway,
      ((convertToStructuredData p).conditions.all
        (fun c => c.operator == "=" && c.value == "true")) = true
      ∧ (strContains (pyStrip (convertToRuleText p)) ", THEN" = false →
          parseRuleTextCore (convertToRuleText p) = none) := by
  intro p
  constructor
  · unfold convertToStructuredData
    split
    · dsimp only
      rw [List.all_eq_true]
      intro c hc
      have h3 := mem_structured_conditions_boolean (convertToRuleText p) c hc
      simp [h3.1, h3.2]
    · rfl
  · intro hcont
    exact (parseRuleTextCore_eq_none_iff _).mpr (Or.inr (Or.inr hcont))

/-- C4 witness: on `pathwayC4` every structured condition is an undecomposed
boolean segment while `Rule.parse_rule_text`'s core fails on the same text. -/
theorem structured_conditions_vs_rule_parse_witness :
    ((convertToStructuredData pathwayC4).conditions.all
      (fun c => c.operator == "=" && c.value == "true")) = true
    ∧ parseRuleTextCore (convertToRuleText pathwayC4) = none :=
  ⟨(structured_conditions_vs_rule_parse pathwayC4).1,
   (structured_conditions_vs_rule_parse pathwayC4).2 (by decide)⟩

/-- Membership in an insertion: the inserted element or an original one. -/
theorem mem_insertBySeq (a x : RuleAction) (l : List RuleAction) :
    x ∈ insertBySeq a l ↔ x = a ∨ x ∈ l := by
  induction l with
  | nil => simp [insertBySeq]
  | cons b rest ih =>
    unfold insertBySeq
    by_cases h : a.sequence ≤ b.sequence
    · rw [if_pos h]
      simp [List.mem_cons]
    · rw [if_neg h]
      simp only [List.mem_cons, ih]
      tauto

/-- Inserting into a `sequence`-sorted list keeps it sorted. -/
theorem insertBySeq_pairwise (a : RuleAction) (l : List RuleAction)
    (h : l.Pairwise (fun x y => x.sequence ≤ y.sequence)) :
    (insertBySeq a l).Pairwise (fun x y => x.sequence ≤ y.sequence) := by
  induction l with
  | nil => simp [insertBySeq]
  | cons b rest ih =>
    unfold insertBySeq
    obtain ⟨hb, hrest⟩ := List.pairwise_cons.mp h
    by_cases hab : a.sequence ≤ b.sequence
    · rw [if_pos hab]
      refine List.pairwise_cons.mpr ⟨?_, h⟩
      intro x hx
      rcases List.mem_cons.mp hx with rfl | hx2
      · exact hab
      · exact le_trans hab (hb x hx2)
    · rw [if_neg hab]
      refine List.pairwise_cons.mpr ⟨?_, ih hrest⟩
      intro x hx
      rcases (mem_insertBySeq a x rest).mp hx with rfl | hx2
      · exact le_of_not_le hab
      · exact hb x hx2

/-- The sort of `generate_rule_text` produces a `sequence`-sorted list. -/
theorem pySortedBySeq_pairwise (l : List RuleAction) :
    (pySortedBySeq l).Pairwise (fun x y => x.sequence ≤ y.sequence) := by
  induction l with
  | nil => simp [pySortedBySeq]
  | cons a rest ih => exact insertBySeq_pairwise a _ ih

/-- Filtering one `sequence` value through an insertion: the inserted element
lands in front of the original elements of that value (the insertion point
passes only strictly smaller sequences). -/
theorem filter_insertBySeq (a : RuleAction) (l : List RuleAction) (k : Int) :
    (insertBySeq a l).filter (fun x => x.sequence == k) =
      (if a.sequence == k then [a] else []) ++ l.filter (fun x => x.sequence == k) := by
  induction l with
  | nil =>
    cases h : (a.sequence == k) <;> simp [insertBySeq, List.filter, h]
  | cons b rest ih =>
    unfold insertBySeq
    by_cases hab : a.sequence ≤ b.sequence
    · rw [if_pos hab]
      cases h : (a.sequence == k) <;> simp [List.filter_cons, h]
    · rw [if_neg hab]
      cases hb : (b.sequence == k) <;> cases ha : (a.sequence == k) <;>
          simp only [List.filter_cons, hb, ha, ih, cond_true, cond_false,
            List.append_nil, List.nil_append] <;> try rfl
      · rw [beq_iff_eq] at ha hb
        exact absurd (ha ▸ hb ▸ le_refl k) hab


/-- Stability of the sort: for every `sequence` value, the sorted list keeps
the original elements of that value in their original relative order. -/
theorem pySortedBySeq_filter (l : List RuleAction) (k : Int) :
    (pySortedBySeq l).filter (fun x => x.sequence == k) =
      l.filter (fun x => x.sequence == k) := by
  induction l with
  | nil => rfl
  | cons a rest ih =>
    rw [show pySortedBySeq (a :: rest) = insertBySeq a (pySortedBySeq rest) from rfl,
      filter_insertBySeq, ih, List.filter_cons]
    cases h : (a.sequence == k) <;> simp [h]

/-- C5: rule-text generation emits the actions sorted by their `sequence`
field ascending (first conjunct), the sort is stable — elements of equal
`sequence` keep their original relative order, stated as filter preservation
per value (second conjunct) — each emitted line is numbered by its 1-based
rank in the sorted order, not by the stored `sequence` (third conjunct), and
the claim's example holds: sequences `[5, 1]` with targets
`cooling`/`heating` render `1. Apply heating` before `2. Apply cooling`
(fourth conjunct). -/
theorem actions_sorted_by_sequence_ranked :
    ∀ (conditions : List Condition) (actions : List RuleAction),
      (pySortedBySeq actions).Pairwise (fun a b => a.sequence ≤ b.sequence)
      ∧ (∀ k : Int, (pySortedBySeq actions).filter (fun a => a.sequence == k) =
          actions.filter (fun a => a.sequence == k))
      ∧ generateRuleText conditions actions =
          ("IF " ++ String.intercalate " " (ifParts conditions)) ++ ",\n" ++
            ("THEN" ++ String.join ((pySortedBySeq actions).enum.map
              (fun q => "\n  " ++ toString (q.1 + 1) ++ ". " ++ actionText q.2)))
      ∧ generateRuleText [] [⟨"Apply", "cooling", "", 5⟩, ⟨"Apply", "heating", "", 1⟩] =
          "IF ,\nTHEN\n  1. Apply heating\n  2. Apply cooling" := by
  intro conditions actions
  exact ⟨pySortedBySeq_pairwise actions, fun k => pySortedBySeq_filter actions k,
    rfl, by decide⟩

/-- `applyNodePhrase` commutes with prefixing the accumulators. -/
theorem applyNodePhrase_prepend (n : DiagnosticNode) (cs acts : List String) (st : TravSt) :
    applyNodePhrase n (prependSt cs acts st) = prependSt cs acts (applyNodePhrase n st) := by
  unfold applyNodePhrase prependSt
  cases h : n.node_type
  case problem => simp
  case check =>
    cases hc : n.getCheckType
    case none => simp
    case some ct => by_cases hne : ct ≠ "" <;> simp [hne]
  case condition =>
    cases hc : n.getConditionSeverity
    case none => simp
    case some sv => by_cases hne : sv ≠ "" <;> simp [hne]
  case action =>
    cases hc : n.getActionImpact
    case none => simp
    case some im => by_cases hne : im ≠ "" <;> simp [hne]

/-- The child fold of the traversal commutes with prefixing the accumulators
whenever the per-child step does. -/
theorem foldl_step_prepend (g : String → TravSt → TravSt) (cs acts : List String)
    (hg : ∀ t st, g t (prependSt cs acts st) = prependSt cs acts (g t st)) (nodeId : String) :
    ∀ (es : List (String × String)) (st : TravSt),
      es.foldl (fun acc e => if e.1 = nodeId then g e.2 acc else acc) (prependSt cs acts st) =
        prependSt cs acts
          (es.foldl (fun acc e => if e.1 = nodeId then g e.2 acc else acc) st) := by
  intro es
  induction es with
  | nil => intro st; rfl
  | cons e rest ih =>
    intro st
    rw [List.foldl_cons, List.foldl_cons]
    by_cases h : e.1 = nodeId
    · rw [if_pos h, if_pos h, hg]
      exact ih _
    · rw [if_neg h, if_neg h]
      exact ih _

/-- `_process_node_for_rule` only appends to the condition and action lists it
is handed: running it on prefixed accumulators equals prefixing its result. -/
theorem processNodeForRule_prepend (p : DiagnosticPathway) :
    ∀ (fuel : Nat) (id : String) (cs acts : List String) (st : TravSt),
      processNodeForRule p fuel id (prependSt cs acts st) =
        prependSt cs acts (processNodeForRule p fuel id st) := by
  intro fuel
  induction fuel with
  | zero => intro id cs acts st; rfl
  | succ f ih =>
    intro id cs acts st
    simp only [processNodeForRule]
    by_cases h : id ∈ st.visited
    · rw [if_pos (show id ∈ (prependSt cs acts st).visited from h), if_pos h]
    · rw [if_neg (show id ∉ (prependSt cs acts st).visited from h), if_neg h]
      have hvis : ({ prependSt cs acts st with
            visited := (prependSt cs acts st).visited ++ [id] } : TravSt) =
          prependSt cs acts { st with visited := st.visited ++ [id] } := rfl
      rw [hvis]
      cases hn : p.nodes.lookup id with
      | none => rfl
      | some node =>
        dsimp only
        rw [applyNodePhrase_prepend]
        exact foldl_step_prepend (processNodeForRule p f) cs acts
          (fun t st2 => ih t cs acts st2) id p.connections _

/-- Each starting-node traversal of `convertCollected` appends its fresh-state
results to the running accumulators. -/
theorem foldl_starts_append (p : DiagnosticPathway) :
    ∀ (starts : List String) (acc : TravSt),
      ((starts.foldl
          (fun acc s => processNodeForRule p (travFuel p) s { acc with visited := [] })
          acc).conditions =
        acc.conditions ++ (starts.map (fun s => (traverseFrom p s).conditions)).flatten)
      ∧ ((starts.foldl
          (fun acc s => processNodeForRule p (travFuel p) s { acc with visited := [] })
          acc).actions =
        acc.actions ++ (starts.map (fun s => (traverseFrom p s).actions)).flatten) := by
  intro starts
  induction starts with
  | nil => intro acc; simp
  | cons s rest ih =>
    intro acc
    rw [List.foldl_cons]
    have hstep : processNodeForRule p (travFuel p) s ({ acc with visited := [] } : TravSt) =
        prependSt acc.conditions acc.actions (traverseFrom p s) := by
      have h0 : ({ acc with visited := [] } : TravSt) =
          prependSt acc.conditions acc.actions ⟨[], [], []⟩ := by
        simp [prependSt]
      rw [h0, processNodeForRule_prepend]
      rfl
    rw [hstep]
    obtain ⟨ihc, iha⟩ := ih (prependSt acc.conditions acc.actions (traverseFrom p s))
    rw [List.map_cons, List.flatten_cons]
    constructor
    · rw [ihc]
      simp [prependSt]
    · rw [iha]
      simp [prependSt]

/-- C1 (amended): `convert_to_rule_text` hands each starting-node traversal a
fresh empty visited set (the source passes a new `set()` per starting node)
while sharing the condition/action lists, so the collected conditions and
actions are exactly the concatenation of the independent per-start
traversals; a node reachable from several starting nodes contributes one
phrase per traversal that reaches it, not one phrase globally. -/
theorem traversal_per_start_fresh_visited :
    ∀ p : DiagnosticPathway,
      (convertCollected p).conditions =
        ((startingNodes p).map (fun s => (traverseFrom p s).conditions)).flatten
      ∧ (convertCollected p).actions =
        ((startingNodes p).map (fun s => (traverseFrom p s).actions)).flatten := by
  intro p
  have h := foldl_starts_append p (startingNodes p) ⟨[], [], []⟩
  exact ⟨h.1, h.2⟩

/-- A successful dict lookup means the key is among the dict's keys. -/
theorem lookup_some_key_mem {l : List (String × DiagnosticNode)} {k : String}
    {v : DiagnosticNode} (h : l.lookup k = some v) : k ∈ l.map Prod.fst := by
  induction l with
  | nil => simp [List.lookup] at h
  | cons kv rest ih =>
    obtain ⟨k2, v2⟩ := kv
    rw [List.lookup] at h
    cases hk : (k == k2) with
    | true =>
      exact List.mem_cons.mpr (Or.inl (eq_of_beq hk))
    | false =>
      rw [hk] at h
      exact List.mem_cons.mpr (Or.inr (ih h))

/-- Appending a phrase never touches the visited set. -/
theorem applyNodePhrase_visited (n : DiagnosticNode) (st : TravSt) :
    (applyNodePhrase n st).visited = st.visited := by
  unfold applyNodePhrase
  cases h : n.node_type
  case problem => rfl
  case check =>
    cases n.getCheckType with
    | none => rfl
    | some ct => by_cases hne : ct ≠ "" <;> simp [hne]
  case condition =>
    cases n.getConditionSeverity with
    | none => rfl
    | some sv => by_cases hne : sv ≠ "" <;> simp [hne]
  case action =>
    cases n.getActionImpact with
    | none => rfl
    | some im => by_cases hne : im ≠ "" <;> simp [hne]

/-- The child fold only grows the visited set when each step does. -/
theorem visited_foldl_subset (g : String → TravSt → TravSt)
    (hg : ∀ t st, st.visited ⊆ (g t st).visited) (nodeId : String) :
    ∀ (es : List (String × String)) (st : TravSt),
      st.visited ⊆
        (es.foldl (fun acc e => if e.1 = nodeId then g e.2 acc else acc) st).visited := by
  intro es
  induction es with
  | nil => intro st x hx; exact hx
  | cons e rest ih =>
    intro st
    rw [List.foldl_cons]
    by_cases h : e.1 = nodeId
    · rw [if_pos h]
      exact fun x hx => ih _ (hg e.2 st hx)
    · rw [if_neg h]
      exact ih st

/-- The traversal only grows the visited set. -/
theorem visited_subset_processNodeForRule (p : DiagnosticPathway) :
    ∀ (fuel : Nat) (id : String) (st : TravSt),
      st.visited ⊆ (processNodeForRule p fuel id st).visited := by
  intro fuel
  induction fuel with
  | zero => intro id st x hx; exact hx
  | succ f ih =>
    intro id st
    simp only [processNodeForRule]
    by_cases h : id ∈ st.visited
    · rw [if_pos h]
      exact fun x hx => hx
    · rw [if_neg h]
      cases hn : p.nodes.lookup id with
      | none => exact fun x hx => List.mem_append.mpr (Or.inl hx)
      | some node =>
        dsimp only
        intro x hx
        refine visited_foldl_subset (processNodeForRule p f)
          (fun t st2 => ih t st2) id p.connections _ ?_
        rw [applyNodePhrase_visited]
        exact List.mem_append.mpr (Or.inl hx)

/-- A larger visited set leaves no more candidates unvisited. -/
theorem unvisitedCount_le_of_visited_subset (p : DiagnosticPathway) (st st2 : TravSt)
    (h : st.visited ⊆ st2.visited) : unvisitedCount p st2 ≤ unvisitedCount p st := by
  unfold unvisitedCount
  refine List.Sublist.length_le (List.monotone_filter_right _ ?_)
  intro a ha
  simp only [decide_eq_true_eq] at ha ⊢
  exact fun hmem => ha (h hmem)

/-- Visiting a fresh candidate strictly shrinks the unvisited count. -/
theorem unvisitedCount_lt_of_new (p : DiagnosticPathway) (st : TravSt) (id : String)
    (hid : id ∈ travCandidates p) (hnv : id ∉ st.visited) :
    unvisitedCount p { st with visited := st.visited ++ [id] } < unvisitedCount p st := by
  unfold unvisitedCount
  have hsub : List.Sublist
      ((travCandidates p).dedup.filter (fun x => x ∉ st.visited ++ [id]))
      ((travCandidates p).dedup.filter (fun x => x ∉ st.visited)) := by
    refine List.monotone_filter_right _ ?_
    intro a ha
    simp only [decide_eq_true_eq, List.mem_append] at ha ⊢
    exact fun hmem => ha (Or.inl hmem)
  refine lt_of_le_of_ne hsub.length_le ?_
  intro he
  have heq := hsub.eq_of_length he
  have hin : id ∈ (travCandidates p).dedup.filter (fun x => x ∉ st.visited) := by
    rw [List.mem_filter]
    exact ⟨List.mem_dedup.mpr hid, by simp [hnv]⟩
  rw [← heq, List.mem_filter] at hin
  simp at hin

/-- One extra unit of fuel is invisible in the child fold once every step
with the smaller fuel is. -/
theorem foldl_fuel_congr (p : DiagnosticPathway) (g : Nat) (nodeId : String)
    (hstep : ∀ id st, unvisitedCount p st < g →
      processNodeForRule p g id st = processNodeForRule p (g + 1) id st) :
    ∀ (es : List (String × String)) (st : TravSt), unvisitedCount p st < g →
      es.foldl (fun acc e => if e.1 = nodeId then processNodeForRule p g e.2 acc else acc) st =
        es.foldl
          (fun acc e => if e.1 = nodeId then processNodeForRule p (g + 1) e.2 acc else acc)
          st := by
  intro es
  induction es with
  | nil => intro st _; rfl
  | cons e rest ih =>
    intro st h
    rw [List.foldl_cons, List.foldl_cons]
    by_cases he : e.1 = nodeId
    · rw [if_pos he, if_pos he, ← hstep e.2 st h]
      refine ih _ (lt_of_le_of_lt ?_ h)
      exact unvisitedCount_le_of_visited_subset p st _
        (visited_subset_processNodeForRule p g e.2 st)
    · rw [if_neg he, if_neg he]
      exact ih st h

/-- Enough fuel is one more than the number of unvisited candidate ids:
adding a further unit changes nothing, because past the visited check every
recursion level consumes a fresh candidate. -/
theorem processNodeForRule_fuel_step (p : DiagnosticPathway) :
    ∀ (f : Nat) (id : String) (st : TravSt), unvisitedCount p st < f →
      processNodeForRule p f id st = processNodeForRule p (f + 1) id st := by
  intro f
  induction f with
  | zero => intro id st h; exact absurd h (Nat.not_lt_zero _)
  | succ g ih =>
    intro id st h
    simp only [processNodeForRule]
    by_cases hmem : id ∈ st.visited
    · rw [if_pos hmem, if_pos hmem]
    · rw [if_neg hmem, if_neg hmem]
      cases hn : p.nodes.lookup id with
      | none => rfl
      | some node =>
        dsimp only
        have hid : id ∈ travCandidates p :=
          List.mem_append.mpr (Or.inl (lookup_some_key_mem hn))
        have hlt : unvisitedCount p
            ({ st with visited := st.visited ++ [id] } : TravSt) < g :=
          lt_of_lt_of_le (unvisitedCount_lt_of_new p st id hid hmem) (Nat.lt_succ_iff.mp h)
        have hlt2 : unvisitedCount p
            (applyNodePhrase node { st with visited := st.visited ++ [id] }) < g := by
          have hv := unvisitedCount_le_of_visited_subset p
            ({ st with visited := st.visited ++ [id] } : TravSt)
            (applyNodePhrase node { st with visited := st.visited ++ [id] })
            (by rw [applyNodePhrase_visited]; exact fun x hx => hx)
          exact lt_of_le_of_lt hv hlt
        exact foldl_fuel_congr p g id ih p.connections _ hlt2

/-- Fuel above the unvisited count is irrelevant: any surplus is invisible. -/
theorem processNodeForRule_fuel_add (p : DiagnosticPathway) (id : String) (st : TravSt) :
    ∀ (k f : Nat), unvisitedCount p st < f →
      processNodeForRule p f id st = processNodeForRule p (f + k) id st := by
  intro k
  induction k with
  | zero => intro f _; rfl
  | succ k ihk =>
    intro f h
    rw [ihk f h]
    exact processNodeForRule_fuel_step p (f + k) id st
      (lt_of_lt_of_le h (Nat.le_add_right f k))

/-- The fuel chosen by the embedding (`travFuel`) is always sufficient: the
traversal's result is unchanged under any larger fuel, for every pathway,
starting id and state — the fuel is a recursion bound, not an observable.
So the embedding of the unbounded Python recursion is exact. -/
theorem travFuel_sufficient :
    ∀ (p : DiagnosticPathway) (id : String) (st : TravSt) (f : Nat), travFuel p ≤ f →
      processNodeForRule p (travFuel p) id st = processNodeForRule p f id st := by
  intro p id st f hf
  have hb : unvisitedCount p st < travFuel p := by
    have h1 : ((travCandidates p).dedup.filter (fun x => x ∉ st.visited)).length ≤
        (travCandidates p).dedup.length := List.length_filter_le _ _
    have h2 : (travCandidates p).dedup.length ≤ (travCandidates p).length :=
      (List.dedup_sublist _).length_le
    have h3 : (travCandidates p).length = p.nodes.length + p.connections.length := by
      simp [travCandidates]
    unfold unvisitedCount travFuel
    omega
  obtain ⟨k, hk⟩ := Nat.exists_eq_add_of_le hf
  rw [hk]
  exact processNodeForRule_fuel_add p id st k (travFuel p) hb

end Elicit
